import Mathlib

/-!
Verification of the GOC Visualiser front-end (a chemistry drawing/analysis
single-page application) against its natural-language specification.

The development shallow-embeds the relevant TypeScript source:

* `src/services/gemini.ts` — `analyzeChemicalStructure`: input validation,
  outbound request construction (`buildParts`), response parsing, and the
  catch-block error classification (`categorizeError`).
* `src/components/DrawingCanvas.tsx` — the drawing surface: pixel buffer
  operations (`handleResize`, `clearCanvas`), stroke handlers
  (`startDrawing`), and the capture handler (`handleCapture`).
* `src/components/ResultCard.tsx` — the PDF pagination loop of
  `handleDownloadPDF` (`pdfLoop`, `pdfPagePositions`).
* `App.tsx` — the controller `handleAnalysis` and its pending-state writes.

Host/runtime functions that the repository calls but does not define
(ECMAScript `JSON.parse`, `String.prototype.includes`, the browser canvas
APIs) are modelled explicitly below; each such model is marked in its doc
comment.  Machine floating-point arithmetic in the PDF pagination is
modelled exactly over `ℚ`; the paginated structure proved here does not
depend on rounding.
-/

/-- Runtime JSON values, as produced by the host `JSON.parse`.  Numbers are
kept as their raw lexemes: no claim in this development inspects a numeric
value. -/
inductive Json where
  | null : Json
  | bool (b : Bool) : Json
  | num (raw : String) : Json
  | str (s : String) : Json
  | arr (elems : List Json) : Json
  | obj (fields : List (String × Json)) : Json
  deriving Repr

/-- Whitespace accepted between JSON tokens (ECMA-404: space, tab, line
feed, carriage return). -/
def isJsonWs (c : Char) : Bool :=
  c == ' ' || c == '\t' || c == '\n' || c == '\r'

/-- Model of skipping inter-token whitespace in `JSON.parse`. -/
def skipWs (cs : List Char) : List Char := cs.dropWhile isJsonWs

/-- Hexadecimal digit test for JSON `\u` escapes. -/
def isHexDigitChar (c : Char) : Bool :=
  c.isDigit || ('a' ≤ c && c ≤ 'f') || ('A' ≤ c && c ≤ 'F')

/-- Value of a hexadecimal digit. -/
def hexVal (c : Char) : Nat :=
  if c.isDigit then c.toNat - '0'.toNat
  else if 'a' ≤ c && c ≤ 'f' then c.toNat - 'a'.toNat + 10
  else c.toNat - 'A'.toNat + 10

/-- Single-character JSON string escapes. -/
def escapeChar (e : Char) : Option Char :=
  if e = '"' then some '"'
  else if e = '\\' then some '\\'
  else if e = '/' then some '/'
  else if e = 'b' then some (Char.ofNat 8)
  else if e = 'f' then some (Char.ofNat 12)
  else if e = 'n' then some '\n'
  else if e = 'r' then some '\r'
  else if e = 't' then some '\t'
  else none

/-- Model of the body of a JSON string literal: consumes characters after
the opening quote up to and including the closing quote, decoding escapes;
returns the decoded characters and the remaining input. -/
def parseStringBody : Nat → List Char → Option (List Char × List Char)
  | 0, _ => none
  | _, [] => none
  | fuel + 1, c :: rest =>
    if c = '"' then some ([], rest)
    else if c = '\\' then
      match rest with
      | [] => none
      | e :: rest2 =>
        if e = 'u' then
          match rest2 with
          | h1 :: h2 :: h3 :: h4 :: rest3 =>
            if isHexDigitChar h1 && isHexDigitChar h2 && isHexDigitChar h3 &&
                isHexDigitChar h4 then
              match parseStringBody fuel rest3 with
              | some (s, r) =>
                some (Char.ofNat
                  ((((hexVal h1 * 16 + hexVal h2) * 16 + hexVal h3) * 16 +
                    hexVal h4) % 1114112) :: s, r)
              | none => none
            else none
          | _ => none
        else
          match escapeChar e with
          | some ec =>
            match parseStringBody fuel rest2 with
            | some (s, r) => some (ec :: s, r)
            | none => none
          | none => none
    else
      match parseStringBody fuel rest with
      | some (s, r) => some (c :: s, r)
      | none => none

/-- Model of a JSON number lexeme: optional minus, integer part without a
superfluous leading zero, optional fraction, optional exponent.  Returns
the raw lexeme and the remaining input. -/
def parseNumberLexeme (cs : List Char) : Option (List Char × List Char) :=
  let (sign, cs1) :=
    match cs with
    | '-' :: t => ([('-' : Char)], t)
    | _ => (([] : List Char), cs)
  let intPart := cs1.takeWhile Char.isDigit
  let cs2 := cs1.dropWhile Char.isDigit
  if intPart.isEmpty then none
  else if 1 < intPart.length ∧ intPart.headD '0' = '0' then none
  else
    let (fracPart, cs3) :=
      match cs2 with
      | '.' :: t =>
        let ds := t.takeWhile Char.isDigit
        if ds.isEmpty then (([] : List Char), cs2)
        else ('.' :: ds, t.dropWhile Char.isDigit)
      | _ => (([] : List Char), cs2)
    let (expPart, cs4) :=
      match cs3 with
      | e :: t =>
        if e = 'e' ∨ e = 'E' then
          let (es, t2) :=
            match t with
            | '+' :: t' => ([('+' : Char)], t')
            | '-' :: t' => ([('-' : Char)], t')
            | _ => (([] : List Char), t)
          let ds := t2.takeWhile Char.isDigit
          if ds.isEmpty then (([] : List Char), cs3)
          else (e :: (es ++ ds), t2.dropWhile Char.isDigit)
        else (([] : List Char), cs3)
      | _ => (([] : List Char), cs3)
    if fracPart.isEmpty ∧ expPart.isEmpty then some (sign ++ intPart, cs2)
    else some (sign ++ intPart ++ fracPart ++ expPart, cs4)

/-- Prefix test on character lists (used to model `String.prototype`
matching primitives of the host runtime). -/
def isPre : List Char → List Char → Bool
  | [], _ => true
  | _ :: _, [] => false
  | a :: as, b :: bs => a == b && isPre as bs

mutual

/-- Model of the recursive-descent core of the host `JSON.parse`: parses
one JSON value from the input (leading whitespace allowed) and returns it
with the remaining input.  Structured by fuel; `parseJSON` supplies fuel
that is always sufficient since every recursive step consumes input. -/
def parseVal : Nat → List Char → Option (Json × List Char)
  | 0, _ => none
  | fuel + 1, cs =>
    match skipWs cs with
    | [] => none
    | c :: rest =>
      if c = '"' then
        match parseStringBody (rest.length + 1) rest with
        | some (s, r) => some (.str (String.mk s), r)
        | none => none
      else if c = '\x7b' then
        match skipWs rest with
        | '\x7d' :: r2 => some (.obj [], r2)
        | r1 => parseMembers fuel r1 []
      else if c = '[' then
        match skipWs rest with
        | ']' :: r2 => some (.arr [], r2)
        | r1 => parseElems fuel r1 []
      else if c = 't' then
        if isPre "rue".toList rest then some (.bool true, rest.drop 3) else none
      else if c = 'f' then
        if isPre "alse".toList rest then some (.bool false, rest.drop 4) else none
      else if c = 'n' then
        if isPre "ull".toList rest then some (.null, rest.drop 3) else none
      else
        match parseNumberLexeme (c :: rest) with
        | some (lex, r) => some (.num (String.mk lex), r)
        | none => none

/-- Members of a JSON object after the opening brace (first member not yet
consumed); accumulates the key/value pairs in order. -/
def parseMembers : Nat → List Char → List (String × Json) →
    Option (Json × List Char)
  | 0, _, _ => none
  | fuel + 1, cs, acc =>
    match skipWs cs with
    | '"' :: rest =>
      match parseStringBody (rest.length + 1) rest with
      | some (k, r1) =>
        match skipWs r1 with
        | ':' :: r2 =>
          match parseVal fuel r2 with
          | some (v, r3) =>
            match skipWs r3 with
            | ',' :: r4 => parseMembers fuel r4 (acc ++ [(String.mk k, v)])
            | '\x7d' :: r4 => some (.obj (acc ++ [(String.mk k, v)]), r4)
            | _ => none
          | none => none
        | _ => none
      | none => none
    | _ => none

/-- Elements of a JSON array after the opening bracket (first element not
yet consumed); accumulates the elements in order. -/
def parseElems : Nat → List Char → List Json → Option (Json × List Char)
  | 0, _, _ => none
  | fuel + 1, cs, acc =>
    match parseVal fuel cs with
    | some (v, r1) =>
      match skipWs r1 with
      | ',' :: r2 => parseElems fuel r2 (acc ++ [v])
      | ']' :: r2 => some (.arr (acc ++ [v]), r2)
      | _ => none
    | none => none

end

/-- Model of the host `JSON.parse`: parses a complete JSON document;
trailing non-whitespace input is rejected, exactly as `JSON.parse`
rejects it. -/
def parseJSON (s : String) : Option Json :=
  match parseVal (s.length + 1) s.toList with
  | some (j, rest) => if (skipWs rest).isEmpty then some j else none
  | none => none

/-- Model of the ECMAScript `String.prototype.includes` substring test,
on character lists: true when `pat` occurs contiguously in `hay`. -/
def listIncl (hay pat : List Char) : Bool :=
  match hay with
  | [] => pat.isEmpty
  | c :: t => isPre pat (c :: t) || listIncl t pat

/-- Model of `errString.includes(pat)` on Lean strings. -/
def jsIncludes (s pat : String) : Bool := listIncl s.toList pat.toList

/-- ECMAScript truthiness of a `string | null | undefined` value: `null`,
`undefined` and the empty string are falsy. -/
def truthy : Option String → Bool
  | none => false
  | some s => !(s == "")

/-- Variants of the `EducationLevel` enum (src/types.ts). -/
inductive EducationLevel where
  | FOUNDATION : EducationLevel
  | BOARD_LEVEL : EducationLevel
  | COMPETITIVE : EducationLevel
  | UNDERGRADUATE : EducationLevel
  deriving Repr, DecidableEq

/-- String value of each `EducationLevel` variant (src/types.ts lines 1-6);
this is the value interpolated into the prompt template. -/
def levelString : EducationLevel → String
  | .FOUNDATION => "Class 9-10 (Foundation)"
  | .BOARD_LEVEL => "Class 11-12 (CBSE/State Boards)"
  | .COMPETITIVE => "JEE Mains/Advanced & NEET"
  | .UNDERGRADUATE => "Undergraduate (B.Sc/B.Tech)"

/-- Error message thrown by the input validation of
`analyzeChemicalStructure` (src/services/gemini.ts line 14).  This throw
happens before the try block, so it is never re-classified. -/
def validationErrorMsg : String := "Please provide a drawing or chemical name."

/-- Error message thrown when the resolved response has a falsy `text`
(src/services/gemini.ts line 101). -/
def emptyResponseMsg : String := "Empty response received from AI model."

/-- Error message thrown by the inner catch when `JSON.parse` fails
(src/services/gemini.ts line 109). -/
def malformedMsg : String :=
  "Failed to structure the chemical data. The AI response was malformed."

/-- Message produced by the authentication branch of the catch block. -/
def authFailedMsg : String :=
  "Authentication Failed: Please check your API key configuration."

/-- Message produced by the access-denied branch of the catch block. -/
def accessDeniedMsg : String :=
  "Access Denied: The API key cannot access this model or region."

/-- Message produced by the rate-limit branch of the catch block. -/
def rateLimitedMsg : String :=
  "High Traffic: The service is currently busy. Please try again in a few seconds."

/-- Message produced by the network branch of the catch block. -/
def networkErrorMsg : String :=
  "Network Error: Please check your internet connection."

/-- Message produced by the safety branch of the catch block. -/
def contentWarningMsg : String :=
  "Content Warning: The input was flagged by safety filters. Try a different drawing."

/-- Message produced by the malformed-data branch of the catch block. -/
def dataErrorMsg : String :=
  "Data Error: Could not interpret the AI\x27s response. Please try again."

/-- Error classification performed by the catch block of
`analyzeChemicalStructure` (src/services/gemini.ts lines 116-139): a chain
of substring tests on the error description, first match wins, with the
verbatim description as the fallback. -/
def categorizeError (errString : String) : String :=
  if jsIncludes errString "API key" || jsIncludes errString "401" then
    authFailedMsg
  else if jsIncludes errString "403" then
    accessDeniedMsg
  else if jsIncludes errString "429" then
    rateLimitedMsg
  else if jsIncludes errString "fetch failed" || jsIncludes errString "network" then
    networkErrorMsg
  else if jsIncludes errString "Safety" || jsIncludes errString "blocked" then
    contentWarningMsg
  else if jsIncludes errString "JSON" || jsIncludes errString "structure" then
    dataErrorMsg
  else
    errString

/-- Word character test of the regular-expression class `\w`
(ASCII letters, digits and underscore). -/
def isWordChar (c : Char) : Bool := c.isAlpha || c.isDigit || c == '_'

/-- Model of `imageData.replace(/^data:image\/\w+;base64,/, "")`
(src/services/gemini.ts line 22): strips one leading
`data:image/<word>;base64,` header when present, otherwise returns the
string unchanged. -/
def dropDataUrlHeader (s : String) : String :=
  let cs := s.toList
  if isPre "data:image/".toList cs then
    let afterScheme := cs.drop 11
    let word := afterScheme.takeWhile isWordChar
    let rest := afterScheme.dropWhile isWordChar
    if word.isEmpty then s
    else if isPre ";base64,".toList rest then String.mk (rest.drop 8)
    else s
  else s

/-- Parts of the outbound `generateContent` request body
(src/services/gemini.ts lines 17-61): an inline-data image part or a text
part. -/
inductive ReqPart where
  | inlineData (mimeType : String) (data : String) : ReqPart
  | text (t : String) : ReqPart
  deriving Repr, DecidableEq

/-- Head of the prompt template literal (src/services/gemini.ts line 35),
up to the interpolation of the image/name subject. -/
def promptHead : String :=
  "\n    Act as a highly experienced Chemistry teacher in the Indian Education System.\n    Identify the chemical compound from the "

/-- Template segment between the subject interpolation and the first
`level` interpolation. -/
def promptAfterSubject : String :=
  ".\n    \n    Target Audience Level: "

/-- Template segment between the two `level` interpolations. -/
def promptMid : String :=
  "\n    \n    Provide a structured response containing:\n    1. Common Name\n    2. IUPAC Name\n    3. Molecular Formula\n    4. A summary explanation tailored specifically to the knowledge level of a student in "

/-- Tail of the prompt template literal, from after the second `level`
interpolation to the closing backquote (src/services/gemini.ts lines
45-55). -/
def promptTail : String :=
  ".\n       - For Foundation: Keep it simple, focus on daily life uses and basic atoms.\n       - For Board Level: Focus on standard properties, hybridization, and textbook definitions.\n       - For JEE/NEET: Focus on stability, reaction mechanisms, exceptions, electronic effects (resonance/inductive), and competitive exam trivia.\n       - For Undergraduate: Discuss molecular orbital theory, spectroscopic properties, and advanced synthesis.\n    5. Key Properties/Facts (3-5 bullet points relevant to the level).\n    6. Common Reactions or Uses (relevant to the level).\n    7. Curriculum Context: A specific note on why this is important for this specific curriculum level (e.g., \"Frequent question in JEE regarding acidity order\").\n    8. Real World Analogy: A creative, non-chemistry analogy to help understand the molecule\x27s behavior or structure (e.g., \"Think of Benzene like a round table where everyone shares their food equally...\").\n    9. Fun Facts: 3 interesting, quirky, or historical facts about this chemical.\n  "

/-- Literal appended before the text query (src/services/gemini.ts
line 58). -/
def querySegment : String := "\n\nChemical Name/Query: "

/-- Prompt text assembled by `analyzeChemicalStructure`
(src/services/gemini.ts lines 35-59): the template with its three
interpolations, plus the query suffix when a text input is provided. -/
def buildPromptText (imageData textInput : Option String)
    (level : EducationLevel) : String :=
  let base := promptHead ++
    (if truthy imageData then "image" else "name provided below") ++
    promptAfterSubject ++ levelString level ++ promptMid ++
    levelString level ++ promptTail
  if truthy textInput then base ++ querySegment ++ textInput.getD ""
  else base

/-- Parts array assembled by `analyzeChemicalStructure`
(src/services/gemini.ts lines 17-61): an optional inline image part (MIME
type chosen by `imageData.startsWith("data:image/jpeg")`, payload with the
data-URL header stripped), followed by exactly one text part. -/
def buildParts (imageData textInput : Option String)
    (level : EducationLevel) : List ReqPart :=
  let imageParts : List ReqPart :=
    if truthy imageData then
      let d := imageData.getD ""
      [ReqPart.inlineData
        (if d.startsWith "data:image/jpeg" then "image/jpeg" else "image/png")
        (dropDataUrlHeader d)]
    else []
  imageParts ++ [ReqPart.text (buildPromptText imageData textInput level)]

/-- Test for the text constructor of `Part`. -/
def ReqPart.isText : ReqPart → Bool
  | .text _ => true
  | _ => false

/-- Test for the inline-image constructor of `Part`. -/
def ReqPart.isImage : ReqPart → Bool
  | .inlineData _ _ => true
  | _ => false

/-- Outcome of the `ai.models.generateContent` call as observed by the
client code: the promise either resolves with a response whose `text`
accessor yields an optional string, or rejects with an error whose
description is a string.  The backend is an external collaborator, so this
outcome is an input of the model. -/
inductive BackendResult where
  | ok (text : Option String) : BackendResult
  | err (message : String) : BackendResult
  deriving Repr, DecidableEq

/-- The field names listed as `required` in the response schema declared to
the backend (src/services/gemini.ts line 95). -/
def requiredFields : List String :=
  ["name", "iupacName", "molecularFormula", "summary", "keyPoints",
   "reactions_or_uses", "curriculumContext", "analogy", "funFacts"]

/-- Field lookup on a runtime JSON value; on duplicate keys the last
occurrence wins, as in `JSON.parse`. -/
def Json.getField : Json → String → Option Json
  | .obj kvs, k => ((kvs.filter (fun kv => kv.1 == k)).getLast?).map Prod.snd
  | _, _ => none

/-- Whether a runtime JSON value carries all nine schema-required fields. -/
def hasRequiredFields (j : Json) : Bool :=
  requiredFields.all (fun k => (j.getField k).isSome)

/-- Shallow embedding of `analyzeChemicalStructure`
(src/services/gemini.ts lines 8-141).  The function validates its inputs,
then (in the try block) inspects the backend outcome: a rejected call or a
falsy response text or a `JSON.parse` failure is routed through the catch
block's `categorizeError`; a parsed body is returned as-is (the TypeScript
`as ChemicalData` cast performs no checks).  The validation throw at line
14 happens before the try block and is therefore not re-classified. -/
def analyzeChemicalStructure (imageData textInput : Option String)
    (_level : EducationLevel) (backend : BackendResult) :
    Except String Json :=
  if !truthy imageData && !truthy textInput then
    .error validationErrorMsg
  else
    match backend with
    | .err m => .error (categorizeError m)
    | .ok t =>
      if !truthy t then .error (categorizeError emptyResponseMsg)
      else
        match parseJSON (t.getD "") with
        | none => .error (categorizeError malformedMsg)
        | some j => .ok j

/-- Number of `ai.models.generateContent` invocations performed by one call
of `analyzeChemicalStructure` on the given inputs: the call site (line 64)
is reached exactly when the validation at line 13 passes, and is executed
once (no retry). -/
def generateContentCalls (imageData textInput : Option String) : Nat :=
  if !truthy imageData && !truthy textInput then 0 else 1

/-- Background fill color of the drawing surface
(src/components/DrawingCanvas.tsx, `#ffffff`). -/
def whiteColor : String := "#ffffff"

/-- Color of a canvas pixel that has never been painted: fully transparent
black, the reset state of an HTML canvas. -/
def transparentColor : String := "transparent"

/-- Pen stroke color of the drawing surface (`#1e293b`, slate-800). -/
def penColor : String := "#1e293b"

/-- Raster surface of the drawing canvas: dimensions plus a pixel map.
Pixel values at coordinates outside `w × h` are not meaningful; every
visibility statement below guards coordinates by the bounds. -/
structure Buffer where
  w : Nat
  h : Nat
  pix : Nat → Nat → String

/-- Model of `CanvasRenderingContext2D.fillRect` with an opaque fill
style: paints the axis-aligned rectangle with the fill color, leaving
other pixels unchanged. -/
def fillRect (b : Buffer) (x0 y0 rw rh : Nat) (c : String) : Buffer :=
  { b with pix := fun x y =>
      if x0 ≤ x ∧ x < x0 + rw ∧ y0 ≤ y ∧ y < y0 + rh then c
      else b.pix x y }

/-- Model of `CanvasRenderingContext2D.drawImage dst src dx dy`: copies the
source surface onto the destination at the given offset.  Pixels outside
the source dimensions are not written (this is where a shrunken
destination, or a smaller source, clips). -/
def drawImage (dst src : Buffer) (dx dy : Nat) : Buffer :=
  { dst with pix := fun x y =>
      if dx ≤ x ∧ x < dx + src.w ∧ dy ≤ y ∧ y < dy + src.h then
        src.pix (x - dx) (y - dy)
      else dst.pix x y }

/-- Model of assigning `canvas.width` / `canvas.height`: the surface takes
the new dimensions and every pixel resets to the transparent state. -/
def setSize (_b : Buffer) (nw nh : Nat) : Buffer :=
  { w := nw, h := nh, pix := fun _ _ => transparentColor }

/-- Freshly created canvas (`document.createElement("canvas")`). -/
def newCanvas : Buffer := { w := 0, h := 0, pix := fun _ _ => transparentColor }

/-- Shallow embedding of `handleResize`
(src/components/DrawingCanvas.tsx lines 19-43): copy the current content
to a temporary canvas of the old size, resize the canvas (which resets its
pixels), re-fill the whole new extent with the white background, then draw
the saved content back at the top-left. -/
def handleResize (canvas : Buffer) (width height : Nat) : Buffer :=
  let tempCanvas := drawImage (setSize newCanvas canvas.w canvas.h) canvas 0 0
  let resized := setSize canvas width height
  let filled := fillRect resized 0 0 width height whiteColor
  drawImage filled tempCanvas 0 0

/-- Drawn ink visible at a pixel: the coordinate lies inside the surface
bounds and holds a color other than the white background (and other than
the never-painted transparent state). -/
def inkAt (b : Buffer) (x y : Nat) : Prop :=
  x < b.w ∧ y < b.h ∧ b.pix x y ≠ whiteColor ∧ b.pix x y ≠ transparentColor

instance (b : Buffer) (x y : Nat) : Decidable (inkAt b x y) := by
  unfold inkAt; exact inferInstance

/-- Drawing tools of the canvas toolbar. -/
inductive Tool where
  | pen : Tool
  | eraser : Tool
  deriving Repr, DecidableEq

/-- Component state of `DrawingCanvas`
(src/components/DrawingCanvas.tsx lines 10-15): the interaction flags and
tool, the raster surface, and the current context path start (`beginPath`
followed by `moveTo`). -/
structure CanvasState where
  isDrawing : Bool
  hasDrawn : Bool
  tool : Tool
  canvas : Buffer
  pathStart : Option (ℚ × ℚ)

/-- Shallow embedding of `startDrawing`
(src/components/DrawingCanvas.tsx lines 59-71): a no-op while
`isProcessing`; otherwise sets the drawing and ink flags and begins a new
context path at the event coordinates. -/
def startDrawing (isProcessing : Bool) (p : ℚ × ℚ) (s : CanvasState) :
    CanvasState :=
  if isProcessing then s
  else { s with isDrawing := true, hasDrawn := true, pathStart := some p }

/-- Shallow embedding of `clearCanvas`
(src/components/DrawingCanvas.tsx lines 117-125): re-fills the whole
surface with the white background and resets the ink flag.  There is no
`isProcessing` guard on this handler. -/
def clearCanvas (s : CanvasState) : CanvasState :=
  { s with
    canvas := fillRect s.canvas 0 0 s.canvas.w s.canvas.h whiteColor,
    hasDrawn := false }

/-- Modelled from the spec: the browser `canvas.toDataURL("image/jpeg",
0.7)` encoder (a host API, not repository code) — "returns a compressed
raster encoding (lossy acceptable) of the current buffer contents as a
self-contained payload".  Modelled as the JPEG data-URL header followed by
a payload listing the buffer contents. -/
def toDataURLJpeg (b : Buffer) : String :=
  "data:image/jpeg;base64," ++
    String.intercalate ","
      ((List.range b.h).map (fun y =>
        String.intercalate ";" ((List.range b.w).map (fun x => b.pix x y))))

/-- Shallow embedding of `handleCapture`
(src/components/DrawingCanvas.tsx lines 127-136): with no ink recorded it
reports "no content" (`onCapture(null)`); otherwise it emits the JPEG
data-URL of the surface. -/
def handleCapture (s : CanvasState) : Option String :=
  if !s.hasDrawn then none
  else some (toDataURLJpeg s.canvas)

/-- Controller state of `App` (src/unnamed/part_000 lines 9-13): the
selected curriculum level, the text field, the displayed result (the
runtime value produced by the analysis), the processing flag, and the
displayed error. -/
structure AppState where
  level : EducationLevel
  textInput : String
  result : Option Json
  isProcessing : Bool
  error : Option String

/-- Validation message set by `handleAnalysis` when both inputs are absent
(src/unnamed/part_000 line 41). -/
def appValidationMsg : String := "Please draw a structure or enter a name."

/-- State written by `handleAnalysis` before the request is dispatched
(src/unnamed/part_000 lines 45-47): `setIsProcessing(true)`,
`setError(null)`, `setResult(null)`. -/
def pendingState (s : AppState) : AppState :=
  { s with isProcessing := true, error := none, result := none }

/-- The `textInput.trim() || null` argument passed to the analysis call
(src/unnamed/part_000 line 50). -/
def trimmedInput (s : AppState) : Option String :=
  if s.textInput.trim == "" then none else some s.textInput.trim

/-- Shallow embedding of `handleAnalysis` (src/unnamed/part_000 lines
38-57) as a function from the captured image, the prior controller state
and the backend outcome to the settled controller state: early validation
(which leaves the prior result in place), then the pending-state writes,
then the awaited analysis settles into either a stored result or a stored
error message, with the processing flag lowered in `finally`. -/
def handleAnalysis (imageData : Option String) (s : AppState)
    (backend : BackendResult) : AppState :=
  if !truthy imageData && s.textInput.trim == "" then
    { s with error := some appValidationMsg }
  else
    let pending := pendingState s
    match analyzeChemicalStructure imageData (trimmedInput s) s.level backend with
    | .ok data => { pending with result := some data, isProcessing := false }
    | .error msg => { pending with error := some msg, isProcessing := false }

/-- Page height constant of the PDF export (`pageHeight = 297`,
src/components/ResultCard.tsx). -/
def pageHeight : ℚ := 297

/-- Page/image width constant of the PDF export (`imgWidth = 210`). -/
def imgWidth : ℚ := 210

/-- Rendered image height in page units (`(canvas.height * imgWidth) /
canvas.width`, src/components/ResultCard.tsx line 290). -/
def imgHeightFor (canvasWidth canvasHeight : ℚ) : ℚ :=
  canvasHeight * imgWidth / canvasWidth

/-- The `while (heightLeft >= 0)` loop of `handleDownloadPDF`
(src/components/ResultCard.tsx lines 298-303), emitting the `position`
argument of each `addImage` call on the added pages.  Structured by fuel;
`pdfPagePositions` supplies fuel exceeding the iteration count. -/
def pdfLoop : Nat → ℚ → ℚ → List ℚ
  | 0, _, _ => []
  | fuel + 1, heightLeft, imgHeight =>
    if 0 ≤ heightLeft then
      (heightLeft - imgHeight) :: pdfLoop fuel (heightLeft - pageHeight) imgHeight
    else []

/-- Vertical positions at which the rendered image is placed on the
successive PDF pages (src/components/ResultCard.tsx lines 292-303): the
first page at position 0, then one page per loop iteration.  Page `i`
therefore shows the vertical band of the image starting at `-position`. -/
def pdfPagePositions (imgHeight : ℚ) : List ℚ :=
  0 :: pdfLoop (Int.toNat ⌈imgHeight⌉ + 1) (imgHeight - pageHeight) imgHeight

/-! Helper lemmas about the substring-containment model. -/

lemma isPre_append_self (p b : List Char) : isPre p (p ++ b) = true := by
  induction p with
  | nil => simp [isPre]
  | cons c t ih => simp [isPre, ih]

lemma isPre_extend (p h b : List Char) (hp : isPre p h = true) :
    isPre p (h ++ b) = true := by
  induction p generalizing h with
  | nil => simp [isPre]
  | cons c t ih =>
    cases h with
    | nil => simp [isPre] at hp
    | cons d hs =>
      simp [isPre] at hp ⊢
      exact ⟨hp.1, ih hs hp.2⟩

lemma listIncl_of_isPre (h p : List Char) (hp : isPre p h = true) :
    listIncl h p = true := by
  cases h with
  | nil =>
    cases p with
    | nil => simp [listIncl]
    | cons c t => simp [isPre] at hp
  | cons c t => simp [listIncl, hp]

lemma listIncl_append_left (a h p : List Char) (hh : listIncl h p = true) :
    listIncl (a ++ h) p = true := by
  induction a with
  | nil => simpa using hh
  | cons c t ih =>
    simp only [List.cons_append, listIncl, Bool.or_eq_true]
    exact Or.inr ih

lemma listIncl_append_right (h b p : List Char) (hh : listIncl h p = true) :
    listIncl (h ++ b) p = true := by
  induction h with
  | nil =>
    cases p with
    | nil => simp [listIncl_of_isPre, isPre]
    | cons c t => simp [listIncl] at hh
  | cons c t ih =>
    simp only [listIncl, Bool.or_eq_true] at hh
    simp only [List.cons_append, listIncl, Bool.or_eq_true]
    rcases hh with hp | ht
    · exact Or.inl (isPre_extend _ _ _ hp)
    · exact Or.inr (ih ht)

lemma string_toList_append (a b : String) :
    (a ++ b).toList = a.toList ++ b.toList := by
  simp [String.toList]

/-- Containment of the middle factor of a three-part concatenation, at the
level of Lean strings. -/
lemma jsIncludes_sandwich (a p b : String) :
    jsIncludes (a ++ p ++ b) p = true := by
  unfold jsIncludes
  rw [string_toList_append, string_toList_append, List.append_assoc]
  exact listIncl_append_left _ _ _
    (listIncl_of_isPre _ _ (isPre_append_self _ _))

/-- Containment of the final factor of a concatenation, at the level of
Lean strings. -/
lemma jsIncludes_suffix (a p : String) :
    jsIncludes (a ++ p) p = true := by
  unfold jsIncludes
  rw [string_toList_append]
  exact listIncl_append_left _ _ _
    (listIncl_of_isPre _ _ (by simpa using isPre_append_self p.toList []))

lemma jsIncludes_extend_right (s b p : String)
    (hs : jsIncludes s p = true) : jsIncludes (s ++ b) p = true := by
  unfold jsIncludes at hs ⊢
  rw [string_toList_append]
  exact listIncl_append_right _ _ _ hs

/-! Helper lemma for the PDF pagination loop. -/

lemma pdfLoop_getD (fuel : Nat) :
    ∀ (hl H : ℚ) (i : Nat), i < (pdfLoop fuel hl H).length →
      (pdfLoop fuel hl H).getD i 0 = hl - pageHeight * i - H := by
  induction fuel with
  | zero => intro hl H i hi; simp [pdfLoop] at hi
  | succ n ih =>
    intro hl H i hi
    by_cases h0 : (0:ℚ) ≤ hl
    · rw [show pdfLoop (n + 1) hl H =
          (hl - H) :: pdfLoop n (hl - pageHeight) H from by simp [pdfLoop, h0]]
      cases i with
      | zero => simp
      | succ j =>
        rw [show pdfLoop (n + 1) hl H =
            (hl - H) :: pdfLoop n (hl - pageHeight) H from by
            simp [pdfLoop, h0]] at hi
        simp only [List.getD_cons_succ]
        rw [ih (hl - pageHeight) H j (by simpa using Nat.lt_of_succ_lt_succ hi)]
        push_cast
        ring
    · simp [pdfLoop, h0] at hi

/-- C4: for every curriculum level (and every backend behaviour),
`analyzeChemicalStructure(null, null, level)` fails with the validation
error, and the `generateContent` call site is executed zero times — the
failure precedes any outbound request. -/
theorem analyze_rejects_absent_inputs (level : EducationLevel)
    (backend : BackendResult) :
    analyzeChemicalStructure none none level backend =
      .error validationErrorMsg ∧
    generateContentCalls none none = 0 :=
  ⟨rfl, rfl⟩

/-- C8: in every state of the drawing surface, `clearCanvas` yields
`hasDrawn = false`, and `handleCapture` invoked on the cleared state (no
intervening stroke) reports "no content" (`onCapture(null)`) rather than
an image or an error. -/
theorem clear_resets_ink_and_capture_is_no_content (s : CanvasState) :
    (clearCanvas s).hasDrawn = false ∧
    handleCapture (clearCanvas s) = none :=
  ⟨rfl, rfl⟩

/-- C9: while an analysis request is in flight (`isProcessing = true`),
`startDrawing` is a no-op — the state is returned unchanged, so no ink is
accepted; in every other state it begins a new context path at the event
point, sets `hasDrawn = true` (and the drawing flag), and leaves the
surface and tool untouched. -/
theorem startStroke_noop_iff_processing (p : ℚ × ℚ) (s : CanvasState) :
    startDrawing true p s = s ∧
    ((startDrawing false p s).isDrawing = true ∧
     (startDrawing false p s).hasDrawn = true ∧
     (startDrawing false p s).pathStart = some p ∧
     (startDrawing false p s).canvas = s.canvas ∧
     (startDrawing false p s).tool = s.tool) :=
  ⟨rfl, rfl, rfl, rfl, rfl, rfl⟩

/-- C7: on a result whose rendered height exceeds one page
(`imgHeight > pageHeight`), the PDF export produces more than one page,
and page `i` (0-indexed) places the rendered image at vertical position
`-(pageHeight * i)` — i.e. page `i` shows exactly the band
`[pageHeight * i, pageHeight * (i + 1))` of the image, so consecutive
pages show contiguous top-to-bottom bands with no gaps or overlaps. -/
theorem pdf_export_paginates_in_contiguous_bands (imgHeight : ℚ)
    (hH : pageHeight < imgHeight) :
    1 < (pdfPagePositions imgHeight).length ∧
    ∀ i : Nat, i < (pdfPagePositions imgHeight).length →
      (pdfPagePositions imgHeight).getD i 0 = -(pageHeight * i) := by
  have h0 : (0:ℚ) ≤ imgHeight - pageHeight := by linarith
  constructor
  · rw [pdfPagePositions, show pdfLoop (Int.toNat ⌈imgHeight⌉ + 1)
        (imgHeight - pageHeight) imgHeight =
        (imgHeight - pageHeight - imgHeight) ::
          pdfLoop (Int.toNat ⌈imgHeight⌉)
            (imgHeight - pageHeight - pageHeight) imgHeight from by
        simp [pdfLoop, h0]]
    simp
  · intro i hi
    cases i with
    | zero => simp [pdfPagePositions]
    | succ j =>
      rw [pdfPagePositions] at hi ⊢
      simp only [List.getD_cons_succ]
      rw [pdfLoop_getD _ _ _ j (by simpa using Nat.lt_of_succ_lt_succ hi)]
      push_cast
      ring

/-- Witness for C7: a rendered height of 420 page units exceeds the
297-unit page, and the export yields more than one page. -/
theorem pdf_export_paginates_in_contiguous_bands_witness :
    1 < (pdfPagePositions 420).length ∧
    ∀ i : Nat, i < (pdfPagePositions 420).length →
      (pdfPagePositions 420).getD i 0 = -(pageHeight * i) :=
  pdf_export_paginates_in_contiguous_bands 420 (by norm_num [pageHeight])

/-- C2, counterexample: the claim says every error description containing
"429" classifies as the rate-limit category, but the authentication check
(`"API key"`/`"401"`) is evaluated first: a description containing both
"401" and "429" classifies as the authentication category. -/
theorem categorize_429_not_always_rate_limited :
    jsIncludes "Error 401: 429 Too Many Requests" "429" = true ∧
    categorizeError "Error 401: 429 Too Many Requests" = authFailedMsg ∧
    categorizeError "Error 401: 429 Too Many Requests" ≠ rateLimitedMsg := by
  refine ⟨by decide, by decide, by decide⟩

/-- C2, amended: classification is a deterministic function of the error
description with the fixed evaluation order of the if/else chain —
`"API key"`/`"401"` first, then `"403"`, then `"429"`, and so on.  A
description containing "403" and none of the authentication patterns
classifies as access denied (even when "429" is also present: the "403"
check is evaluated first); a description containing "429" and none of the
earlier patterns classifies as rate limited. -/
theorem categorize_follows_fixed_precedence (s : String) :
    (jsIncludes s "API key" = false → jsIncludes s "401" = false →
      jsIncludes s "403" = true → categorizeError s = accessDeniedMsg) ∧
    (jsIncludes s "API key" = false → jsIncludes s "401" = false →
      jsIncludes s "403" = false → jsIncludes s "429" = true →
      categorizeError s = rateLimitedMsg) := by
  refine ⟨fun h1 h2 h3 => ?_, fun h1 h2 h3 h4 => ?_⟩
  · simp [categorizeError, h1, h2, h3]
  · simp [categorizeError, h1, h2, h3, h4]

/-- Witness for C2: a description containing both "403" and "429" (and no
authentication pattern) classifies as access denied, the first-evaluated
of the two checks. -/
theorem categorize_follows_fixed_precedence_witness :
    (jsIncludes "HTTP 403 after 429" "403" = true ∧
     jsIncludes "HTTP 403 after 429" "429" = true) ∧
    categorizeError "HTTP 403 after 429" = accessDeniedMsg :=
  ⟨by decide,
   (categorize_follows_fixed_precedence "HTTP 403 after 429").1
     (by decide) (by decide) (by decide)⟩

/-- C1, counterexample: a response body that parses as JSON but lacks all
nine required fields is not rejected — `analyzeChemicalStructure` returns
it as-is (the `as ChemicalData` cast checks nothing), instead of failing
with the malformed-response error. -/
theorem analyze_accepts_body_missing_required_fields :
    parseJSON "\x7b\x7d" = some (Json.obj []) ∧
    (Json.obj []).getField "name" = none ∧
    hasRequiredFields (Json.obj []) = false ∧
    analyzeChemicalStructure none (some "Benzene") EducationLevel.FOUNDATION
      (.ok (some "\x7b\x7d")) = .ok (Json.obj []) :=
  ⟨rfl, rfl, rfl, rfl⟩

/-- C1, amended: whenever a non-empty response body is received and fails
to parse as JSON, `analyzeChemicalStructure` fails with the
malformed-response message ("Data Error: …", the classification of the
inner parse-failure throw), regardless of how the backend behaved
otherwise; a body that parses, however, is returned as-is even when
required fields are absent (field presence is delegated to the declared
backend schema, not checked client-side). -/
theorem analyze_unparsable_body_fails_malformed
    (imageData textInput : Option String) (level : EducationLevel)
    (t : String)
    (hin : (truthy imageData || truthy textInput) = true)
    (ht : t ≠ "")
    (hparse : parseJSON t = none) :
    analyzeChemicalStructure imageData textInput level (.ok (some t)) =
      .error dataErrorMsg ∧
    categorizeError malformedMsg = dataErrorMsg := by
  have hguard : (!truthy imageData && !truthy textInput) = false := by
    cases h1 : truthy imageData <;> cases h2 : truthy textInput <;>
      simp_all
  have htruthy : truthy (some t) = true := by simp [truthy, ht]
  constructor
  · simp [analyzeChemicalStructure, hguard, htruthy, hparse]
    decide
  · decide

/-- Witness for C1: the body "not json" is non-empty and unparsable, and
the analysis fails with the malformed-data message. -/
theorem analyze_unparsable_body_fails_malformed_witness :
    ((truthy (none : Option String) || truthy (some "Benzene ring")) = true ∧
     "not json" ≠ "" ∧ parseJSON "not json" = none) ∧
    (analyzeChemicalStructure none (some "Benzene ring")
        EducationLevel.BOARD_LEVEL (.ok (some "not json")) =
      .error dataErrorMsg ∧
     categorizeError malformedMsg = dataErrorMsg) :=
  ⟨⟨by decide, by decide, rfl⟩,
   analyze_unparsable_body_fails_malformed none (some "Benzene ring")
     EducationLevel.BOARD_LEVEL "not json" (by decide) (by decide) rfl⟩

/-- C5: for every backend response whose body parses as JSON, with all nine
required fields present, `analyzeChemicalStructure` returns exactly the
parsed value — the very object produced by `JSON.parse`, so every field
value is passed through unmodified (nothing is rewritten, defaulted or
dropped). -/
theorem analyze_passes_parsed_body_through
    (imageData textInput : Option String) (level : EducationLevel)
    (t : String) (j : Json)
    (hin : (truthy imageData || truthy textInput) = true)
    (hparse : parseJSON t = some j)
    (_hfields : hasRequiredFields j = true) :
    analyzeChemicalStructure imageData textInput level (.ok (some t)) =
      .ok j ∧
    ∀ k, (analyzeChemicalStructure imageData textInput level
        (.ok (some t))).toOption.bind (fun r => r.getField k) =
      j.getField k := by
  have ht : t ≠ "" := by
    intro h
    rw [h, show parseJSON "" = (none : Option Json) from rfl] at hparse
    exact Option.noConfusion hparse
  have hguard : (!truthy imageData && !truthy textInput) = false := by
    cases h1 : truthy imageData <;> cases h2 : truthy textInput <;>
      simp_all
  have htruthy : truthy (some t) = true := by simp [truthy, ht]
  have hres : analyzeChemicalStructure imageData textInput level
      (.ok (some t)) = .ok j := by
    simp [analyzeChemicalStructure, hguard, htruthy, hparse]
  exact ⟨hres, fun k => by rw [hres]; rfl⟩

/-- Sample backend response body used by the C5 witness: a JSON document
carrying all nine schema-required fields. -/
def sampleResponseText : String :=
  "\x7b\"name\":\"Benzene\",\"iupacName\":\"benzene\",\"molecularFormula\":\"C6H6\",\"summary\":\"s\",\"keyPoints\":[\"k\"],\"reactions_or_uses\":[\"r\"],\"curriculumContext\":\"c\",\"analogy\":\"a\",\"funFacts\":[\"f\"]\x7d"

/-- Parse result of `sampleResponseText`. -/
def sampleParsed : Json :=
  Json.obj [("name", .str "Benzene"), ("iupacName", .str "benzene"),
    ("molecularFormula", .str "C6H6"), ("summary", .str "s"),
    ("keyPoints", .arr [.str "k"]),
    ("reactions_or_uses", .arr [.str "r"]),
    ("curriculumContext", .str "c"), ("analogy", .str "a"),
    ("funFacts", .arr [.str "f"])]

set_option maxRecDepth 8192 in
/-- Witness for C5: on a concrete nine-field response body, the analysis
returns exactly the parsed object. -/
theorem analyze_passes_parsed_body_through_witness :
    ((truthy (none : Option String) || truthy (some "Benzene")) = true ∧
     parseJSON sampleResponseText = some sampleParsed ∧
     hasRequiredFields sampleParsed = true) ∧
    analyzeChemicalStructure none (some "Benzene")
        EducationLevel.COMPETITIVE (.ok (some sampleResponseText)) =
      .ok sampleParsed :=
  ⟨⟨by decide, rfl, rfl⟩,
   (analyze_passes_parsed_body_through none (some "Benzene")
     EducationLevel.COMPETITIVE sampleResponseText sampleParsed
     (by decide) rfl rfl).1⟩

lemma listIncl_nil_pat (hay : List Char) : listIncl hay [] = true := by
  cases hay <;> simp [listIncl, isPre]

lemma jsIncludes_empty_pat (s : String) : jsIncludes s "" = true :=
  listIncl_nil_pat s.toList

/-- The assembled prompt text always contains the selected level's enum
string (it is interpolated into the template twice). -/
lemma buildPromptText_contains_level (imageData textInput : Option String)
    (level : EducationLevel) :
    jsIncludes (buildPromptText imageData textInput level)
      (levelString level) = true := by
  unfold buildPromptText
  have hbase : jsIncludes
      (promptHead ++ (if truthy imageData then "image" else "name provided below") ++
        promptAfterSubject ++ levelString level ++ promptMid ++
        levelString level ++ promptTail) (levelString level) = true :=
    jsIncludes_sandwich
      (promptHead ++ (if truthy imageData then "image" else "name provided below") ++
        promptAfterSubject ++ levelString level ++ promptMid)
      (levelString level) promptTail
  by_cases hti : truthy textInput = true
  · simp only [hti, if_true]
    exact jsIncludes_extend_right _ _ _
      (jsIncludes_extend_right _ _ _ hbase)
  · simp only [Bool.not_eq_true] at hti
    simp only [hti, if_false]
    exact hbase

/-- C6: for every input combination, the outbound request parts contain
exactly one text part; they contain one inline image part when an image is
supplied (and none otherwise), whose MIME type is JPEG or PNG selected by
inspecting the data-URL header of the still; and the text part's prompt
contains the enum string of the selected curriculum level, plus the
literal text query when one is provided. -/
theorem request_parts_shape_and_prompt
    (imageData textInput : Option String) (level : EducationLevel) :
    ((buildParts imageData textInput level).filter ReqPart.isText).length = 1 ∧
    ((buildParts imageData textInput level).filter ReqPart.isImage).length =
      (if truthy imageData then 1 else 0) ∧
    (∀ d, imageData = some d → d ≠ "" →
      ∃ m, (buildParts imageData textInput level).filter ReqPart.isImage =
          [ReqPart.inlineData m (dropDataUrlHeader d)] ∧
        (m = "image/jpeg" ∨ m = "image/png") ∧
        (m = "image/jpeg" ↔ d.startsWith "data:image/jpeg" = true)) ∧
    jsIncludes (buildPromptText imageData textInput level)
      (levelString level) = true ∧
    (∀ q, textInput = some q →
      jsIncludes (buildPromptText imageData textInput level) q = true) := by
  refine ⟨?_, ?_, ?_, buildPromptText_contains_level _ _ _, ?_⟩
  · by_cases hij : truthy imageData = true <;>
      simp_all [buildParts, ReqPart.isText]
  · by_cases hij : truthy imageData = true <;>
      simp_all [buildParts, ReqPart.isImage]
  · rintro d rfl hne
    have hti : truthy (some d) = true := by simp [truthy, hne]
    refine ⟨if d.startsWith "data:image/jpeg" then "image/jpeg"
      else "image/png", ?_, ?_, ?_⟩
    · simp [buildParts, hti, ReqPart.isImage, ReqPart.isText]
    · by_cases hs : d.startsWith "data:image/jpeg" = true <;> simp [hs]
    · by_cases hs : d.startsWith "data:image/jpeg" = true <;> simp [hs]
  · rintro q rfl
    by_cases hq : q = ""
    · subst hq; exact jsIncludes_empty_pat _
    · have htq : truthy (some q) = true := by simp [truthy, hq]
      unfold buildPromptText
      simp only [htq, if_true, Option.getD_some]
      exact jsIncludes_suffix _ _

/-- Witness for C6: a JPEG data-URL still and the query "Benzene" at board
level produce one image part (JPEG, header stripped), one text part, and a
prompt containing the board-level enum string and the query. -/
theorem request_parts_shape_and_prompt_witness :
    ((buildParts (some "data:image/jpeg;base64,QUJD") (some "Benzene")
        EducationLevel.BOARD_LEVEL).filter ReqPart.isText).length = 1 ∧
    (∃ m, (buildParts (some "data:image/jpeg;base64,QUJD") (some "Benzene")
          EducationLevel.BOARD_LEVEL).filter ReqPart.isImage =
        [ReqPart.inlineData m
          (dropDataUrlHeader "data:image/jpeg;base64,QUJD")] ∧
      (m = "image/jpeg" ∨ m = "image/png") ∧
      (m = "image/jpeg" ↔
        ("data:image/jpeg;base64,QUJD").startsWith "data:image/jpeg" = true)) ∧
    jsIncludes (buildPromptText (some "data:image/jpeg;base64,QUJD")
        (some "Benzene") EducationLevel.BOARD_LEVEL)
      (levelString EducationLevel.BOARD_LEVEL) = true ∧
    jsIncludes (buildPromptText (some "data:image/jpeg;base64,QUJD")
        (some "Benzene") EducationLevel.BOARD_LEVEL) "Benzene" = true :=
  let h := request_parts_shape_and_prompt (some "data:image/jpeg;base64,QUJD")
    (some "Benzene") EducationLevel.BOARD_LEVEL
  ⟨h.1, h.2.2.1 "data:image/jpeg;base64,QUJD" rfl (by decide),
   h.2.2.2.1, h.2.2.2.2 "Benzene" rfl⟩

/-- Concrete two-pixel-wide surface with ink in its rightmost column, used
to exhibit the cropping behaviour of `handleResize`. -/
def shrinkExampleBuffer : Buffer :=
  { w := 2, h := 1,
    pix := fun x y => if x = 1 ∧ y = 0 then penColor else whiteColor }

/-- C3, counterexample: resizing to a smaller surface does not keep all
previously drawn ink visible — ink in the old rightmost column lies
outside the new 1×1 bounds and is cropped. -/
theorem resize_smaller_crops_ink :
    inkAt shrinkExampleBuffer 1 0 ∧
    ¬ inkAt (handleResize shrinkExampleBuffer 1 1) 1 0 := by
  constructor
  · decide
  · decide

/-- C3, amended: after `handleResize` to any new size, every ink pixel
lying within both the old and the new bounds keeps its exact color (the
old buffer is copied to the top-left), and every newly exposed pixel of
the new extent is re-filled with the white background; ink outside the new
bounds is cropped, so content preservation holds for the intersection of
the two extents, not for shrinking resizes in full. -/
theorem resize_preserves_ink_within_new_bounds
    (b : Buffer) (newW newH x y : Nat) (hx : x < newW) (hy : y < newH) :
    (inkAt b x y → inkAt (handleResize b newW newH) x y) ∧
    (¬ (x < b.w ∧ y < b.h) →
      (handleResize b newW newH).pix x y = whiteColor) := by
  constructor
  · rintro ⟨hxb, hyb, hcw, hct⟩
    have hpix : (handleResize b newW newH).pix x y = b.pix x y := by
      simp [handleResize, drawImage, fillRect, setSize, hxb, hyb]
    exact ⟨by simpa [handleResize, drawImage, fillRect, setSize] using hx,
      by simpa [handleResize, drawImage, fillRect, setSize] using hy,
      by rw [hpix]; exact hcw, by rw [hpix]; exact hct⟩
  · intro hout
    have hnot : ¬ (x < b.w ∧ y < b.h) := hout
    simp only [handleResize, drawImage, fillRect, setSize]
    simp only [Nat.zero_le, Nat.zero_add, true_and]
    rw [if_neg (by tauto), if_pos ⟨hx, hy⟩]

/-- Witness for C3: on the concrete surface, growing to 3×3 keeps the ink
pixel visible. -/
theorem resize_preserves_ink_within_new_bounds_witness :
    ((1:Nat) < 3 ∧ (0:Nat) < 3) ∧
    ((inkAt shrinkExampleBuffer 1 0 →
        inkAt (handleResize shrinkExampleBuffer 3 3) 1 0) ∧
     (¬ (1 < shrinkExampleBuffer.w ∧ 0 < shrinkExampleBuffer.h) →
       (handleResize shrinkExampleBuffer 3 3).pix 1 0 = whiteColor)) :=
  ⟨by decide,
   resize_preserves_ink_within_new_bounds shrinkExampleBuffer 3 3 1 0
     (by decide) (by decide)⟩

/-- C10: whenever `handleAnalysis` passes validation and enters the
pending state, the pending state (written before the request is
dispatched) holds neither a result nor an error; consequently, when the
analysis settles in failure, the final state shows only the error — the
prior successful result is not retained. -/
theorem pending_clears_prior_result_and_error
    (imageData : Option String) (s : AppState) (backend : BackendResult)
    (hvalid : (!truthy imageData && s.textInput.trim == "") = false) :
    ((pendingState s).result = none ∧ (pendingState s).error = none ∧
     (pendingState s).isProcessing = true) ∧
    (∀ msg,
      analyzeChemicalStructure imageData (trimmedInput s) s.level backend =
        .error msg →
      (handleAnalysis imageData s backend).result = none ∧
      (handleAnalysis imageData s backend).error = some msg ∧
      (handleAnalysis imageData s backend).isProcessing = false) := by
  refine ⟨⟨rfl, rfl, rfl⟩, ?_⟩
  intro msg hmsg
  simp [handleAnalysis, hvalid, hmsg, pendingState]

/-- Concrete controller state holding a previous result and a previous
error, used by the C10 witness. -/
def appStateExample : AppState :=
  { level := EducationLevel.FOUNDATION, textInput := "",
    result := some (Json.str "previous result"), isProcessing := false,
    error := some "previous error" }

/-- Witness for C10: a failing backend on a drawing-only submission clears
the previously displayed result and stores only the new error. -/
theorem pending_clears_prior_result_and_error_witness :
    ((!truthy (some "drawing") && appStateExample.textInput.trim == "") =
      false) ∧
    (((pendingState appStateExample).result = none ∧
      (pendingState appStateExample).error = none ∧
      (pendingState appStateExample).isProcessing = true) ∧
     ((handleAnalysis (some "drawing") appStateExample
         (.err "boom")).result = none ∧
      (handleAnalysis (some "drawing") appStateExample
         (.err "boom")).error = some "boom" ∧
      (handleAnalysis (some "drawing") appStateExample
         (.err "boom")).isProcessing = false)) :=
  ⟨by decide,
   let h := pending_clears_prior_result_and_error (some "drawing")
     appStateExample (.err "boom") (by decide)
   ⟨h.1, h.2 "boom" rfl⟩⟩
